import Mathlib

/-!
Verification of the thermal-rating and grid-stress engine of the
grid-stress-insight repository.

The engine has three relevant sources, each embedded below in its own
namespace:

* `CR` — the edge function `supabase/functions/compute-ratings/index.ts`
  (first revision in the file): the IEEE-738-style ampacity model, the
  unguarded line-stress ratio, the overload-temperature bisection and the
  band-weighted system stress index.
* `CA` — the edge function `supabase/functions/contingency-analysis/index.ts`
  (first revision): its own ampacity model with a 100 A floor, the guarded
  line-stress ratio, the CSV topology parser and the N-1 contingency loop.
* `OutageSimulator` — `src/utils/outageSimulation.ts`: name-regex adjacency,
  outage stress adjustment and the system statistics aggregator.

JavaScript floating-point numbers are modelled as real numbers (`ℝ`) where
the code computes with square roots and trigonometry, and as rationals (`ℚ`)
in the purely arithmetic outage simulator.  Values that JavaScript would
make `NaN` or `±Infinity` (division by a zero total, `Math.max()` of an
empty spread) are modelled with `Option`, `none` standing for a non-finite
result.
-/

namespace GridStress

/-! ### Shared JavaScript helpers -/

/-- Characters matched by `\s` in a JavaScript regular expression
(the ASCII ones plus the BOM, NBSP and the two line separators; the
remaining Unicode space separators do not occur in this data set). -/
def jsWsChar (c : Char) : Bool :=
  c = ' ' ∨ c = '\t' ∨ c = '\n' ∨ c = '\r' ∨ c = Char.ofNat 11 ∨
    c = Char.ofNat 12 ∨ c = Char.ofNat 0xA0 ∨ c = Char.ofNat 0xFEFF ∨
    c = Char.ofNat 0x2028 ∨ c = Char.ofNat 0x2029

/-- Characters matched by `.` in a JavaScript regular expression
(anything except the four line terminators). -/
def jsDotChar (c : Char) : Bool :=
  ¬ (c = '\n' ∨ c = '\r' ∨ c = Char.ofNat 0x2028 ∨ c = Char.ofNat 0x2029)

/-- `String.prototype.trim`: strip `\s` characters from both ends. -/
def jsTrimList (s : List Char) : List Char :=
  ((s.dropWhile jsWsChar).reverse.dropWhile jsWsChar).reverse

/-- `String.prototype.trim` on `String`. -/
def jsTrim (s : String) : String :=
  ⟨jsTrimList s.data⟩

/-- `Math.round`: round half toward positive infinity. -/
noncomputable def jsRound (x : ℝ) : ℤ := ⌊x + 1/2⌋

/-! #### The line-name regular expression

`buildAdjacency` matches each line display name against
`/^(.+?)\s+\(\d+\)\s+TO\s+(.+?)\s+\(\d+\)/i` and keeps the two lazy
captures.  The match is modelled by explicit backtracking search in the
same priority order as the JavaScript engine: each lazy group tries the
shortest extension first; each greedy `\s+` or `\d+` that is followed in
the pattern by a character outside its own class is deterministic (only
the maximal run can succeed), and the one `\s+` that is followed by the
lazy `(.+?)` backtracks from its maximal run down to a single character. -/

/-- Maximal nonempty whitespace run: the rest of the input, or `none` when
the input does not start with whitespace. -/
def wsPlus (s : List Char) : Option (List Char) :=
  if (s.takeWhile jsWsChar).isEmpty then none else some (s.dropWhile jsWsChar)

/-- `\(\d+\)` at the front of the input; returns the rest. -/
def parenNum (s : List Char) : Option (List Char) :=
  match s with
  | '(' :: r =>
      let ds := r.takeWhile Char.isDigit
      if ds.isEmpty then none
      else
        match r.dropWhile Char.isDigit with
        | ')' :: r2 => some r2
        | _ => none
  | _ => none

/-- `\s+\(\d+\)\s+[Tt][Oo]` after the first capture; deterministic. -/
def afterGroup1 (s : List Char) : Option (List Char) := do
  let s1 ← wsPlus s
  let s2 ← parenNum s1
  let s3 ← wsPlus s2
  match s3 with
  | t :: o :: r =>
      if (t = 'T' ∨ t = 't') ∧ (o = 'O' ∨ o = 'o') then some r else none
  | _ => none

/-- `\s+\(\d+\)` as a prefix of the input (what must follow the second
capture); deterministic. -/
def tailPart (s : List Char) : Bool :=
  match wsPlus s with
  | none => false
  | some s1 => (parenNum s1).isSome

/-- The lazy second capture starting at a fixed position: the shortest
nonempty run of `.`-matchable characters followed by `tailPart`. -/
def group2At (s : List Char) : Option (List Char) :=
  (List.range s.length).findSome? fun k0 =>
    let k := k0 + 1
    let g2 := s.take k
    if g2.all jsDotChar ∧ tailPart (s.drop k) then some g2 else none

/-- The `\s+` before the second capture, backtracking from its maximal run
down to a single character, each time trying the lazy capture. -/
def group2Search (s : List Char) : Option (List Char) :=
  let m := (s.takeWhile jsWsChar).length
  (List.range m).findSome? fun i => group2At (s.drop (m - i))

/-- The whole anchored match: the lazy first capture tries the shortest
nonempty prefix first; on success both captures are returned. -/
def matchLineName (s : List Char) : Option (List Char × List Char) :=
  (List.range s.length).findSome? fun k0 =>
    let k := k0 + 1
    let g1 := s.take k
    if g1.all jsDotChar then
      match afterGroup1 (s.drop k) with
      | none => none
      | some rest =>
          match group2Search rest with
          | none => none
          | some g2 => some (g1, g2)
    else none

/-- `name.match(regex)` on a `String`: the two captures, untrimmed. -/
def parseLineName (name : String) : Option (String × String) :=
  (matchLineName name.data).map fun p => (⟨p.1⟩, ⟨p.2⟩)

/-! ### `CR`: supabase/functions/compute-ratings/index.ts (first revision) -/

namespace CR

/-- Conductor parameters as produced by `getConductorParams`. -/
structure ConductorParams where
  res25C : ℝ
  res50C : ℝ
  diameter : ℝ
  alpha : ℝ
  emissivity : ℝ
  absorptivity : ℝ

/-- The data for one conductor loaded from `conductor_library.csv`
(the `diameter` field already converted from inches to millimetres). -/
structure ConductorLibData where
  res25C : ℝ
  res50C : ℝ
  diameter : ℝ

/-- `getConductorParams`: derive full parameters from a library row, or fall
back to the documented default conductor when the row is absent. -/
noncomputable def getConductorParams (libData : Option ConductorLibData) : ConductorParams :=
  match libData with
  | some d =>
      let alpha := (d.res50C - d.res25C) / (d.res25C * 25)
      { res25C := d.res25C, res50C := d.res50C, diameter := d.diameter
        alpha := if 0 < alpha then alpha else 0.0039
        emissivity := 0.8, absorptivity := 0.8 }
  | none =>
      { res25C := 0.1166, res50C := 0.1278, diameter := 28.1
        alpha := 0.0039, emissivity := 0.8, absorptivity := 0.8 }

/-- The fallback conductor returned by `getConductorParams` for an unknown
conductor name. -/
noncomputable def defaultConductor : ConductorParams := getConductorParams none

/-- `resistanceAtTemp`. -/
def resistanceAtTemp (res25C alpha tempC : ℝ) : ℝ :=
  res25C * (1 + alpha * (tempC - 25))

/-- `ieee738Ampacity` of compute-ratings: simplified steady-state heat
balance.  Convective loss scales with `Re^0.6` and `|sin|` of the attack
angle, radiative loss is Stefan–Boltzmann, solar gain is a constant offset,
and the rating is `sqrt(max(0, Q_net / R(MOT)))` with no lower floor. -/
noncomputable def ieee738Ampacity (ambientTempC windMS attackAngleDeg motC : ℝ)
    (conductor : ConductorParams) : ℝ :=
  let Tmax := motC
  let Ta := ambientTempC
  let V := max windMS 0.5
  let phi := attackAngleDeg * Real.pi / 180
  let D := conductor.diameter / 1000
  let eps := conductor.emissivity
  let alphaSolar := conductor.absorptivity
  let R := conductor.res25C / 1000
  let alphaR := conductor.alpha
  let sigma : ℝ := 5.67e-8
  let nu : ℝ := 1.5e-5
  let k : ℝ := 0.026
  let Re := V * D / nu
  let Nu := 0.24 * Re ^ (0.6 : ℝ)
  let hConv := Nu * k / D
  let qConv := hConv * Real.pi * D * (Tmax - Ta) * |Real.sin phi|
  let qRad := eps * sigma * Real.pi * D *
    ((Tmax + 273.15) ^ 4 - (Ta + 273.15) ^ 4)
  let qSolar := alphaSolar * 1000 * D * 0.5
  let qNet := qConv + qRad - qSolar
  let rActual := resistanceAtTemp R alphaR Tmax
  Real.sqrt (max 0 (qNet / rActual))

/-- `computeLineStress` of compute-ratings: the unguarded ratio. -/
noncomputable def computeLineStress (actualA ratingA : ℝ) : ℝ :=
  actualA / ratingA * 100

/-- The fields of the line object read by `solveOverloadTemp`. -/
structure Line where
  attackAngle : ℝ
  mot : ℝ

/-- The binary-search loop of `solveOverloadTemp`: `n` halvings of the
bracket `[lo, hi]`, keeping the rating above `a` on the left end and below
`a` on the right end. -/
noncomputable def bisectLoop (f : ℝ → ℝ) (a : ℝ) : ℕ → ℝ → ℝ → ℝ × ℝ
  | 0, lo, hi => (lo, hi)
  | n + 1, lo, hi =>
      if f ((lo + hi) / 2) < a then bisectLoop f a n lo ((lo + hi) / 2)
      else bisectLoop f a n ((lo + hi) / 2) hi

/-- `solveOverloadTemp` of compute-ratings: `0` when the line is already
overloaded at 0 °C ambient, `none` when it is still safe at 60 °C, and
otherwise the midpoint of the bracket after 24 bisection iterations. -/
noncomputable def solveOverloadTemp (line : Line) (windMS windDeg actualA : ℝ)
    (conductor : ConductorParams) : Option ℝ :=
  let attack := line.attackAngle
  let ratingAt0 := ieee738Ampacity 0 windMS attack line.mot conductor
  if ratingAt0 < actualA then some 0
  else
    let ratingAt60 := ieee738Ampacity 60 windMS attack line.mot conductor
    if actualA ≤ ratingAt60 then none
    else
      let p := bisectLoop (fun t => ieee738Ampacity t windMS attack line.mot conductor)
        actualA 24 0 60
      some ((p.1 + p.2) / 2)

/-- Division as JavaScript computes it, with `none` standing for the
non-finite result produced by a zero divisor (`x / 0` and `0 / 0`). -/
noncomputable def jsDiv (a b : ℝ) : Option ℝ :=
  if b = 0 then none else some (a / b)

/-- `Math.max(...xs)`: `none` models the `-Infinity` of an empty spread. -/
noncomputable def jsMax (xs : List ℝ) : Option ℝ :=
  match xs with
  | [] => none
  | h :: t => some (t.foldl max h)

/-- The summary record built by `computeSystemStressIndex`. -/
structure SystemStats where
  ssi : Option ℝ
  low : ℕ
  medium : ℕ
  high : ℕ
  overload : ℕ
  avgStress : Option ℝ
  maxStress : Option ℝ

/-- `computeSystemStressIndex` of compute-ratings: band counts, mean and
maximum stress, and a fixed band-weighted stress index, with no guard
against an empty input. -/
noncomputable def computeSystemStressIndex (stresses : List ℝ) : SystemStats :=
  let low := stresses.countP fun s => decide (s < 70)
  let medium := stresses.countP fun s => decide (70 ≤ s ∧ s < 90)
  let high := stresses.countP fun s => decide (90 ≤ s ∧ s < 100)
  let overload := stresses.countP fun s => decide (100 ≤ s)
  let total := stresses.length
  { ssi := jsDiv ((low : ℝ) * 0.1 + (medium : ℝ) * 0.4 + (high : ℝ) * 0.7 +
      (overload : ℝ) * 1.0) (total : ℝ)
    low := low, medium := medium, high := high, overload := overload
    avgStress := jsDiv stresses.sum (total : ℝ)
    maxStress := jsMax stresses }

end CR

/-! ### `CA`: supabase/functions/contingency-analysis/index.ts (first revision) -/

namespace CA

/-- One entry of the inline `conductorLibrary` record. -/
structure ConductorData where
  diam_mm : ℝ
  r25_ohm_km : ℝ
  alpha : ℝ

/-- The inline `conductorLibrary` of the contingency-analysis function. -/
def conductorLibrary (name : String) : Option ConductorData :=
  if name = "795 ACSR 26/7 DRAKE" then some ⟨28.14, 0.0724, 0.00404⟩
  else if name = "556.5 ACSR 26/7 DOVE" then some ⟨23.01, 0.1039, 0.00404⟩
  else if name = "1272 ACSR 45/7 BITTERN" then some ⟨35.1, 0.04559, 0.00404⟩
  else if name = "336.4 ACSR 30/7 ORIOLE" then some ⟨17.9, 0.1723, 0.00404⟩
  else none

/-- Truncation toward zero, as used by the JavaScript `%` operator. -/
noncomputable def jsTrunc (r : ℝ) : ℤ := if r < 0 then ⌈r⌉ else ⌊r⌋

/-- The JavaScript remainder operator `%` on numbers. -/
noncomputable def jsRem (x y : ℝ) : ℝ := x - y * (jsTrunc (x / y) : ℝ)

/-- `ieee738Ampacity` of contingency-analysis: unknown conductors get a safe
default of 600 A; known conductors get a heat-balance rating clamped below
by 100 A. -/
noncomputable def ieee738Ampacity (conductor : String)
    (tempC windMS azimuthDeg windDeg MOT : ℝ) : ℝ :=
  match conductorLibrary conductor with
  | none => 600
  | some params =>
    let D := params.diam_mm / 1000
    let mu : ℝ := 1.846e-5
    let Re := max 1 (windMS * D / mu)
    let k_air : ℝ := 0.026
    let Nu := 0.3 + 0.62 * Real.sqrt Re * (1 : ℝ) ^ ((1 : ℝ) / 3)
    let h_conv := Nu * k_air / D
    let attack := |jsRem (azimuthDeg - windDeg + 540) 360 - 180|
    let windFactor := 0.5 + 0.5 * Real.cos (min attack 90 * Real.pi / 180)
    let qc := max 0 (h_conv * windFactor * max 0 (MOT - tempC))
    let eps : ℝ := 0.8
    let sigma : ℝ := 5.67e-8
    let qr := max 0 (eps * sigma * ((MOT + 273.15) ^ 4 - (tempC + 273.15) ^ 4))
    let qs : ℝ := 0
    let Rkm := params.r25_ohm_km * (1 + params.alpha * (MOT - 25))
    let Rm := max (Rkm / 1000) 1e-8
    let num := max (qc + qr - qs) 0
    let I := Real.sqrt (num / Rm)
    max I 100

/-- `computeLineStress` of contingency-analysis: the guarded ratio. -/
noncomputable def computeLineStress (actualA ratingA : ℝ) : ℝ :=
  if 0 < ratingA then actualA / ratingA * 100 else 0

/-- The parsed line record (`LineData` of contingency-analysis).  CSV
fields are decimal literals, so the numeric fields are modelled as `ℚ`. -/
structure LineData where
  id : String
  bus0 : Int
  bus1 : Int
  name : String
  conductor : String
  p0_nominal : ℚ
  kV : ℚ
  MOT : ℚ
deriving DecidableEq

/-- One contingency issue: the neighbour display name and its recorded
(0.1-rounded) stress. -/
structure Issue where
  line : String
  stress : ℝ

/-- One contingency result. -/
structure Contingency where
  outage : String
  issues : List Issue
  maxStress : ℝ

/-- The neighbours of an outage line: every other line sharing one of its
endpoint buses.  The source materialises this through the `busToLines`
index and a `Set`; since the grid is a `Map` keyed by the unique line id,
that set is exactly this filter. -/
def neighborsOf (lines : List LineData) (outage : LineData) : List LineData :=
  lines.filter fun l =>
    l.id != outage.id &&
      (l.bus0 == outage.bus0 || l.bus1 == outage.bus0 ||
        l.bus0 == outage.bus1 || l.bus1 == outage.bus1)

/-- The post-outage stress of one neighbour: its rating under the current
environment (azimuth passed as 0, as in the source), its nominal current
uplifted by the fixed 30 % redistribution heuristic, and the guarded
stress ratio. -/
noncomputable def neighborStress (tempC windMS windDeg : ℝ) (n : LineData) : ℝ :=
  let baseRating := ieee738Ampacity n.conductor tempC windMS 0 windDeg (n.MOT : ℝ)
  let baseActual := ((n.p0_nominal : ℝ) * 1000) / (Real.sqrt 3 * (n.kV : ℝ))
  let increasedActual := baseActual * (1 + 0.3)
  computeLineStress increasedActual baseRating

/-- The issues of one contingency: neighbours whose post-outage stress
exceeds 80 %, each recorded with its stress rounded to one decimal. -/
noncomputable def issuesOf (tempC windMS windDeg : ℝ) (neighbors : List LineData) :
    List Issue :=
  neighbors.filterMap fun n =>
    if 80 < neighborStress tempC windMS windDeg n then
      some ⟨n.name, (jsRound (neighborStress tempC windMS windDeg n * 10) : ℝ) / 10⟩
    else none

/-- The running maximum the source keeps while collecting issues: updated
only for neighbours whose stress exceeds 80, starting from 0. -/
noncomputable def maxStressOf (tempC windMS windDeg : ℝ) (neighbors : List LineData) : ℝ :=
  neighbors.foldl
    (fun m n =>
      if 80 < neighborStress tempC windMS windDeg n
      then max m (neighborStress tempC windMS windDeg n) else m)
    0

/-- `issues.sort((a, b) => b.stress - a.stress)`: descending by stress. -/
noncomputable def sortIssues (issues : List Issue) : List Issue :=
  issues.mergeSort fun a b => decide (b.stress ≤ a.stress)

/-- One iteration of the contingency loop: skip outages with no neighbour,
skip outages with no issue, otherwise report the outage display name, its
issues sorted descending and the maximum issue stress. -/
noncomputable def contingencyFor (tempC windMS windDeg : ℝ) (lines : List LineData)
    (outage : LineData) : Option Contingency :=
  let neighbors := neighborsOf lines outage
  if neighbors.isEmpty then none
  else
    let issues := issuesOf tempC windMS windDeg neighbors
    if issues.isEmpty then none
    else
      some
        { outage := outage.name
          issues := sortIssues issues
          maxStress := maxStressOf tempC windMS windDeg neighbors }

/-- The whole analysis: all reportable contingencies, sorted descending by
`maxStress` and truncated to the top 10. -/
noncomputable def contingencyAnalysis (lines : List LineData)
    (tempC windMS windDeg : ℝ) : List Contingency :=
  ((lines.filterMap (contingencyFor tempC windMS windDeg lines)).mergeSort
    fun a b => decide (b.maxStress ≤ a.maxStress)).take 10

/-! #### The CSV topology parser of contingency-analysis -/

/-- `String.prototype.split` on a single-character separator: every piece
kept, empty pieces included. -/
def splitOnChar (sep : Char) : List Char → List (List Char)
  | [] => [[]]
  | c :: r =>
      if c = sep then [] :: splitOnChar sep r
      else
        match splitOnChar sep r with
        | [] => [[c]]
        | p :: ps => (c :: p) :: ps

/-- `toRows`: trim the whole text, split into lines, split each line on
commas. -/
def toRows (t : String) : List (List String) :=
  (splitOnChar '\n' (jsTrimList t.data)).map fun row =>
    (splitOnChar ',' row).map fun cell => (⟨cell⟩ : String)

/-- `String.prototype.toLowerCase` (the data uses ASCII names). -/
def jsToLower (s : String) : String :=
  ⟨s.data.map Char.toLower⟩

/-- `idx`: find a column by case-insensitive trimmed name, throwing the
missing-column error otherwise. -/
def idx (hdr : List String) (name : String) : Except String Nat :=
  match hdr.findIdx? (fun h => jsToLower (jsTrim h) == jsToLower name) with
  | some i => .ok i
  | none => .error ("Missing column \"" ++ name ++ "\"")

/-- The numeric value of a digit run. -/
def digitsToNat (ds : List Char) : Nat :=
  ds.foldl (fun acc c => acc * 10 + (c.toNat - '0'.toNat)) 0

/-- `parseInt(s, 10)`: optional sign then a maximal digit prefix; `none`
models `NaN`. -/
def jsParseInt (s : String) : Option Int :=
  let t := s.data.dropWhile jsWsChar
  let parse : Int → List Char → Option Int := fun sign t2 =>
    let ds := t2.takeWhile Char.isDigit
    if ds.isEmpty then none else some (sign * (digitsToNat ds : Int))
  match t with
  | '-' :: r => parse (-1) r
  | '+' :: r => parse 1 r
  | _ => parse 1 t

/-- `parseFloat(s)`: optional sign, integer digits, optional fraction
digits; `none` models `NaN`.  Exponent notation and the special values,
unused by this data set, are not modelled. -/
def jsParseFloat (s : String) : Option ℚ :=
  let t := s.data.dropWhile jsWsChar
  let parse : ℚ → List Char → Option ℚ := fun sign t2 =>
    let ip := t2.takeWhile Char.isDigit
    let rest := t2.dropWhile Char.isDigit
    let fp :=
      match rest with
      | '.' :: r2 => r2.takeWhile Char.isDigit
      | _ => []
    if ip.isEmpty ∧ fp.isEmpty then none
    else some (sign * ((digitsToNat ip : ℚ) + (digitsToNat fp : ℚ) / (10 : ℚ) ^ fp.length))
  match t with
  | '-' :: r => parse (-1) r
  | '+' :: r => parse 1 r
  | _ => parse 1 t

/-- A character inside a `\w` word for `\b` boundary purposes. -/
def isWordChar (c : Char) : Bool :=
  c.isAlphanum || c = '_'

/-- `/\bDIGITS\b/.test(s)`: the digit run occurs with a word boundary on
both sides. -/
def testWordNum (digits : List Char) (s : List Char) : Bool :=
  (List.range (s.length + 1)).any fun i =>
    ((s.drop i).take digits.length == digits) &&
      (i == 0 || !isWordChar (s.getD (i - 1) ' ')) &&
      (i + digits.length == s.length || !isWordChar (s.getD (i + digits.length) ' '))

/-- The quick kV heuristic read off the branch display name. -/
def kvFromName (name : String) : ℚ :=
  if testWordNum ['6', '9'] name.data then 69
  else if testWordNum ['1', '3', '8'] name.data then 138
  else 115

/-- `Map.set` on an association list, keeping the original position of an
overwritten key as a JavaScript `Map` does. -/
def gridSet (g : List (String × LineData)) (k : String) (v : LineData) :
    List (String × LineData) :=
  if g.any (fun p => p.1 == k) then g.map fun p => if p.1 == k then (k, v) else p
  else g ++ [(k, v)]

/-- A string-keyed map of flows, as a function. -/
def flowMapSet (m : String → Option ℚ) (k : String) (v : ℚ) : String → Option ℚ :=
  fun k2 => if k2 = k then some v else m k2

/-- `parseGrid`: header lookup by name (throwing on a missing column), the
flow map keyed by line name, and the grid of parsed line records; rows
with an empty id are skipped, unparseable numeric fields fall back to the
documented defaults. -/
def parseGrid (linesText flowsText : String) :
    Except String (List (String × LineData)) := do
  let linesRows := toRows linesText
  let flowsRows := toRows flowsText
  let Lh := linesRows.headD []
  let Fh := flowsRows.headD []
  let LiName ← idx Lh "name"
  let LiBus0 ← idx Lh "bus0"
  let LiBus1 ← idx Lh "bus1"
  let LiBranch ← idx Lh "branch_name"
  let LiCond ← idx Lh "conductor"
  let LiMOT ← idx Lh "MOT"
  let FiName ← idx Fh "name"
  let FiP0 ← idx Fh "p0_nominal"
  let flowMap := (flowsRows.drop 1).foldl
    (fun m row =>
      let nm := jsTrim (row.getD FiName "")
      let p0 := jsParseFloat (row.getD FiP0 "")
      if nm = "" then m else flowMapSet m nm (p0.getD 0))
    (fun _ => none)
  let grid := (linesRows.drop 1).foldl
    (fun g row =>
      let id := jsTrim (row.getD LiName "")
      let name := jsTrim (row.getD LiBranch id)
      let bus0 := (jsParseInt (row.getD LiBus0 "")).getD (-1)
      let bus1 := (jsParseInt (row.getD LiBus1 "")).getD (-1)
      let conductor := jsTrim (row.getD LiCond "")
      let MOT := (jsParseFloat (row.getD LiMOT "100")).getD 100
      let kV := kvFromName name
      if id = "" then g
      else gridSet g id ⟨id, bus0, bus1, name, conductor, (flowMap id).getD 0, kV, MOT⟩)
    []
  .ok grid

/-- The request handler, abstracted over the outcome of the two upstream
fetches: a fetch rejection or a `parseGrid` throw is caught and returned
as a structured error; a loaded grid is analysed, with no emptiness
check. -/
noncomputable def serveContingency (fetched : Except String (String × String))
    (tempC windMS windDeg : ℝ) : Except String (List Contingency) :=
  match fetched with
  | .error e => .error e
  | .ok (linesText, flowsText) =>
      match parseGrid linesText flowsText with
      | .error e => .error e
      | .ok grid => .ok (contingencyAnalysis (grid.map (·.2)) tempC windMS windDeg)

end CA

/-! ### `OutageSimulator`: src/utils/outageSimulation.ts

The stress values handled here are plain arithmetic, so they are modelled
over `ℚ` to keep the simulator fully executable. -/

namespace OutageSimulator

/-- The fields of the line records the simulator reads. -/
structure LineData where
  id : String
  name : String
  stress : ℚ
deriving DecidableEq

/-- The two adjacency maps the simulator builds;`busToLines` maps a bus
name to the set of incident line ids and `lineToBuses` maps a line id to
the two bus names parsed from its display name. -/
structure Sim where
  busToLines : String → Option (List String)
  lineToBuses : String → Option (String × String)

/-- `Map.set`: functional overwrite of one key. -/
def mapSet {α : Type} (m : String → Option α) (k : String) (v : α) :
    String → Option α :=
  fun k2 => if k2 = k then some v else m k2

/-- `Set.add`: append the element unless already present. -/
def setAdd (xs : List String) (x : String) : List String :=
  if x ∈ xs then xs else xs ++ [x]

/-- Add one line id to the line set of one bus (creating the set first when
absent, as the source does). -/
def addBusLine (m : String → Option (List String)) (bus id : String) :
    String → Option (List String) :=
  mapSet m bus (setAdd ((m bus).getD []) id)

/-- One `forEach` step of `buildAdjacency`: lines whose display name does
not match the regular expression contribute nothing. -/
def buildAdjacencyStep (sim : Sim) (line : LineData) : Sim :=
  match parseLineName line.name with
  | none => sim
  | some (b1raw, b2raw) =>
      let bus1 := jsTrim b1raw
      let bus2 := jsTrim b2raw
      { busToLines := addBusLine (addBusLine sim.busToLines bus1 line.id) bus2 line.id
        lineToBuses := mapSet sim.lineToBuses line.id (bus1, bus2) }

/-- `buildAdjacency`, run by the constructor over all lines. -/
def buildAdjacency (lines : List LineData) : Sim :=
  lines.foldl buildAdjacencyStep ⟨fun _ => none, fun _ => none⟩

/-- The per-line body of `calculateAdjustedStress`: `none` for a cut line
(`null` in the source), the baseline stress for a line without adjacency
entry, and otherwise the baseline stress under the incident-cut uplift,
counting cut ids once per endpoint bus set. -/
def adjustedStressOf (sim : Sim) (line : LineData) (cutLines : List String) :
    Option ℚ :=
  if line.id ∈ cutLines then none
  else
    match sim.lineToBuses line.id with
    | none => some line.stress
    | some (bus1, bus2) =>
        let c1 := ((sim.busToLines bus1).getD []).countP fun i => decide (i ∈ cutLines)
        let c2 := ((sim.busToLines bus2).getD []).countP fun i => decide (i ∈ cutLines)
        let factor : ℚ := 1 + min (((c1 + c2 : ℕ) : ℚ) * 0.30) 0.60
        some (line.stress * factor)

/-- `calculateAdjustedStress`: the map from line id to adjusted stress
(`none` for cut lines). -/
def calculateAdjustedStress (sim : Sim) (lines : List LineData)
    (cutLines : List String) : String → Option ℚ :=
  lines.foldl
    (fun m l => fun k => if k = l.id then adjustedStressOf sim l cutLines else m k)
    (fun _ => none)

/-- The baseline stress map: every line id mapped to its unmodified
baseline stress. -/
def baselineStressMap (lines : List LineData) : String → Option ℚ :=
  lines.foldl
    (fun m l => fun k => if k = l.id then some l.stress else m k)
    (fun _ => none)

/-- The band counters of `calculateSystemStats`. -/
structure Bands where
  low : ℕ
  medium : ℕ
  high : ℕ
  overload : ℕ
deriving DecidableEq

/-- The result record of `calculateSystemStats`. -/
structure Stats where
  ssi : ℚ
  avgStress : ℚ
  maxStress : ℚ
  bands : Bands
deriving DecidableEq

/-- `Math.max(...xs)` for the nonempty active list (the `[]` branch is
never reached behind the emptiness guard). -/
def maxOf (xs : List ℚ) : ℚ :=
  xs.foldl max (xs.headD 0)

/-- `calculateSystemStats`: skip entries that are `null`/absent, count the
stress bands with the chained comparisons of the source, and return exact
zeros when no line is active. -/
def calculateSystemStats (lines : List LineData)
    (adjustedStress : String → Option ℚ) : Stats :=
  let active := lines.filterMap fun l => adjustedStress l.id
  let bands : Bands :=
    { low := active.countP fun s => decide (s < 70)
      medium := active.countP fun s => decide (¬ s < 70 ∧ s < 90)
      high := active.countP fun s => decide (¬ s < 90 ∧ s < 100)
      overload := active.countP fun s => decide (¬ s < 100) }
  if active = [] then
    { ssi := 0, avgStress := 0, maxStress := 0, bands := bands }
  else
    { ssi := (active.map fun s => (s / 100) ^ 2).sum / (active.length : ℚ)
      avgStress := active.sum / (active.length : ℚ)
      maxStress := maxOf active
      bands := bands }

/-- The per-bus cut-incidence count of the source: the number of cut ids in
the bus set of the first endpoint plus the number in the bus set of the
second endpoint, so a cut line sharing both endpoints counts twice. -/
def incidentCutCount (sim : Sim) (lineId : String) (cutLines : List String) : ℕ :=
  match sim.lineToBuses lineId with
  | none => 0
  | some (bus1, bus2) =>
      (((sim.busToLines bus1).getD []).countP fun i => decide (i ∈ cutLines)) +
      (((sim.busToLines bus2).getD []).countP fun i => decide (i ∈ cutLines))

end OutageSimulator

/-! ### Concrete instances used by witnesses and counterexamples -/

/-- Modelled from the spec: one row of the external data file
`conductor_library.csv` (absent from the sources), for the conductor
"795 ACSR 26/7 DRAKE" with diameter 28.14 mm, r25 = 0.0724 Ω/km and
α = 0.00404 as documented in the spec; `res50C` is the value that
reproduces the documented α via `getConductorParams`. -/
noncomputable def drakeLibData : CR.ConductorLibData :=
  ⟨0.0724, 0.0797124, 28.14⟩

/-- A line carrying 73.55 MW at 115 kV on an unknown conductor: its
uplifted stress against the 600 A default rating lies strictly between
80 and 80.05, the rounding boundary. -/
def cexL1 : CA.LineData := ⟨"l1", 1, 2, "L1name", "X", 73.55, 115, 100⟩

/-- A flow-free line sharing bus 2 with `cexL1`. -/
def cexL2 : CA.LineData := ⟨"l2", 2, 3, "L2name", "X", 0, 115, 100⟩

/-! ### Claim C1: the line-stress ratio -/

/-- C1 (amended): the contingency-analysis `computeLineStress` returns `0`
whenever `ratingA ≤ 0` and `100 × actualA / ratingA` otherwise; the
compute-ratings `computeLineStress` returns `100 × actualA / ratingA`
unconditionally, so the two agree exactly when `ratingA > 0`. -/
theorem c1_lineStress_spec (actualA ratingA : ℝ) :
    (ratingA ≤ 0 → CA.computeLineStress actualA ratingA = 0) ∧
    (0 < ratingA →
      CA.computeLineStress actualA ratingA = 100 * actualA / ratingA ∧
      CR.computeLineStress actualA ratingA = 100 * actualA / ratingA) := by
  constructor
  · intro h
    have : ¬ 0 < ratingA := not_lt.mpr h
    simp [CA.computeLineStress, this]
  · intro h
    constructor
    · simp only [CA.computeLineStress, if_pos h]
      ring
    · simp only [CR.computeLineStress]
      ring

/-- C1 witness: the amended statement evaluated at `(7, -3)` and `(7, 2)`. -/
theorem c1_lineStress_witness :
    CA.computeLineStress 7 (-3) = 0 ∧
    CA.computeLineStress 7 2 = 100 * 7 / 2 := by
  refine ⟨(c1_lineStress_spec 7 (-3)).1 (by norm_num),
    ((c1_lineStress_spec 7 2).2 (by norm_num)).1⟩

/-- C1 counterexample: the compute-ratings `computeLineStress` has no
`ratingA ≤ 0` guard; at `actualA = 100`, `ratingA = -1` it returns `-10000`,
not the `0` required by the claim. -/
theorem c1_lineStress_cex :
    (-1 : ℝ) ≤ 0 ∧ CR.computeLineStress 100 (-1) ≠ 0 := by
  constructor
  · norm_num
  · simp only [CR.computeLineStress]
    norm_num

/-! ### Claim C2: the ampacity floor -/

/-- C2 (amended): the contingency-analysis `ieee738Ampacity` returns at
least 100 A for every conductor name (known or not) and all environment
inputs; in this real-number model the result is automatically finite and
hence non-negative. -/
theorem c2_ampacityFloor_spec (conductor : String)
    (tempC windMS azimuthDeg windDeg MOT : ℝ) :
    100 ≤ CA.ieee738Ampacity conductor tempC windMS azimuthDeg windDeg MOT := by
  cases h : CA.conductorLibrary conductor with
  | none =>
      simp only [CA.ieee738Ampacity, h]
      norm_num
  | some params =>
      simp only [CA.ieee738Ampacity, h]
      exact le_max_right _ _

/-- C2 counterexample: the compute-ratings `ieee738Ampacity` has no floor.
For the DRAKE library conductor, at ambient temperature equal to the
100 °C MOT and attack angle 0°, convection and radiation vanish while the
solar gain stays positive, so the net heat budget is negative and the
returned rating is 0, not at least 100. -/
theorem c2_ampacityFloor_cex :
    CR.ieee738Ampacity 100 5 0 100 (CR.getConductorParams (some drakeLibData)) = 0 := by
  simp only [CR.ieee738Ampacity, CR.getConductorParams, CR.resistanceAtTemp, drakeLibData]
  rw [show (0 : ℝ) * Real.pi / 180 = 0 by ring, Real.sin_zero]
  rw [Real.sqrt_eq_zero']
  rw [max_le_iff]
  refine ⟨le_refl 0, ?_⟩
  apply div_nonpos_of_nonpos_of_nonneg
  · norm_num
  · norm_num

/-! ### Claim C3: monotonicity of ampacity in ambient temperature -/

/-- Helper: the clamped convective term `max 0 (C * max 0 a)` is monotone
in `a` for a coefficient of either sign: a non-negative `C` passes the
monotonicity through, and a non-positive `C` clamps both sides to 0. -/
theorem max_zero_mul_max_zero_mono (C a b : ℝ) (hab : a ≤ b) :
    max 0 (C * max 0 a) ≤ max 0 (C * max 0 b) := by
  rcases le_total C 0 with hC | hC
  · rw [max_eq_left (mul_nonpos_iff.mpr (Or.inr ⟨hC, le_max_left 0 a⟩)),
      max_eq_left (mul_nonpos_iff.mpr (Or.inr ⟨hC, le_max_left 0 b⟩))]
  · exact max_le_max le_rfl (mul_le_mul_of_nonneg_left (max_le_max le_rfl hab) hC)

/-- Helper: monotonicity of the compute-ratings ampacity in ambient
temperature, on ambients above absolute zero, for any conductor with
positive diameter, non-negative emissivity and positive resistance at
MOT. -/
theorem ampacity_cr_antitone (c : CR.ConductorParams) (w att mot : ℝ)
    (hD : 0 < c.diameter) (hε : 0 ≤ c.emissivity)
    (hR : 0 < CR.resistanceAtTemp (c.res25C / 1000) c.alpha mot)
    (t1 t2 : ℝ) (h1 : -273.15 ≤ t1) (h12 : t1 ≤ t2) :
    CR.ieee738Ampacity t2 w att mot c ≤ CR.ieee738Ampacity t1 w att mot c := by
  simp only [CR.ieee738Ampacity]
  apply Real.sqrt_le_sqrt
  apply max_le_max le_rfl
  rw [div_le_div_right hR]
  have hD' : (0 : ℝ) < c.diameter / 1000 := by positivity
  have hV : (0 : ℝ) < max w 0.5 := lt_max_of_lt_right (by norm_num)
  have hNu : (0 : ℝ) ≤ 0.24 * (max w 0.5 * (c.diameter / 1000) / 1.5e-5) ^ (0.6 : ℝ) := by
    have : (0 : ℝ) ≤ max w 0.5 * (c.diameter / 1000) / 1.5e-5 := by positivity
    have := Real.rpow_nonneg this (0.6 : ℝ)
    linarith
  have hC1 : (0 : ℝ) ≤
      0.24 * (max w 0.5 * (c.diameter / 1000) / 1.5e-5) ^ (0.6 : ℝ) * 0.026 /
        (c.diameter / 1000) * Real.pi * (c.diameter / 1000) := by
    have hπ := Real.pi_pos
    have h26 : (0 : ℝ) ≤ 0.24 * (max w 0.5 * (c.diameter / 1000) / 1.5e-5) ^ (0.6 : ℝ) * 0.026 := by
      linarith
    have := div_nonneg h26 (le_of_lt hD')
    have := mul_nonneg this (le_of_lt hπ)
    exact mul_nonneg this (le_of_lt hD')
  have hconv :
      0.24 * (max w 0.5 * (c.diameter / 1000) / 1.5e-5) ^ (0.6 : ℝ) * 0.026 /
          (c.diameter / 1000) * Real.pi * (c.diameter / 1000) * (mot - t2) *
          |Real.sin (att * Real.pi / 180)| ≤
        0.24 * (max w 0.5 * (c.diameter / 1000) / 1.5e-5) ^ (0.6 : ℝ) * 0.026 /
          (c.diameter / 1000) * Real.pi * (c.diameter / 1000) * (mot - t1) *
          |Real.sin (att * Real.pi / 180)| := by
    apply mul_le_mul_of_nonneg_right _ (abs_nonneg _)
    apply mul_le_mul_of_nonneg_left _ hC1
    linarith
  have hB : (0 : ℝ) ≤ c.emissivity * 5.67e-8 * Real.pi * (c.diameter / 1000) := by
    have hπ := Real.pi_pos
    have h1 : (0 : ℝ) ≤ c.emissivity * 5.67e-8 := by nlinarith
    have h2 := mul_nonneg h1 (le_of_lt hπ)
    exact mul_nonneg h2 (le_of_lt hD')
  have hpow : (t1 + 273.15) ^ 4 ≤ (t2 + 273.15) ^ 4 := by
    apply pow_le_pow_left (by linarith) (by linarith)
  have hrad :
      c.emissivity * 5.67e-8 * Real.pi * (c.diameter / 1000) *
          ((mot + 273.15) ^ 4 - (t2 + 273.15) ^ 4) ≤
        c.emissivity * 5.67e-8 * Real.pi * (c.diameter / 1000) *
          ((mot + 273.15) ^ 4 - (t1 + 273.15) ^ 4) := by
    apply mul_le_mul_of_nonneg_left _ hB
    linarith
  linarith

/-- Helper: monotonicity of the contingency-analysis ampacity in ambient
temperature on ambients above absolute zero, with no side conditions: an
unknown conductor gives the constant 600, and for a known conductor both
clamped heat-loss terms are non-increasing while the resistance is clamped
positive. -/
theorem ampacity_ca_antitone (conductor : String) (w az wd mot : ℝ)
    (t1 t2 : ℝ) (h1 : -273.15 ≤ t1) (h12 : t1 ≤ t2) :
    CA.ieee738Ampacity conductor t2 w az wd mot ≤
      CA.ieee738Ampacity conductor t1 w az wd mot := by
  cases h : CA.conductorLibrary conductor with
  | none => simp [CA.ieee738Ampacity, h]
  | some params =>
      simp only [CA.ieee738Ampacity, h]
      apply max_le_max _ le_rfl
      apply Real.sqrt_le_sqrt
      have hRm : (0 : ℝ) <
          max (params.r25_ohm_km * (1 + params.alpha * (mot - 25)) / 1000) 1e-8 :=
        lt_of_lt_of_le (by norm_num) (le_max_right _ _)
      rw [div_le_div_right hRm]
      apply max_le_max _ le_rfl
      apply sub_le_sub_right
      apply add_le_add
      · exact max_zero_mul_max_zero_mono _ _ _ (by linarith)
      · apply max_le_max le_rfl
        apply mul_le_mul_of_nonneg_left _ (by norm_num : (0 : ℝ) ≤ 0.8 * 5.67e-8)
        apply sub_le_sub_left
        exact pow_le_pow_left (by linarith) (by linarith) 4

/-- C3 (amended): holding the conductor, wind, angle inputs and MOT fixed,
both `ieee738Ampacity` implementations are monotonically non-increasing in
the ambient temperature on the physically meaningful domain of ambients at
or above absolute zero (−273.15 °C), which contains the whole 0–60 °C
bisection range: the compute-ratings version for every conductor with
positive diameter, non-negative emissivity and positive resistance at MOT,
and the contingency-analysis version for every conductor name with no side
conditions. -/
theorem c3_ampacity_antitone (t1 t2 : ℝ) (h1 : -273.15 ≤ t1) (h12 : t1 ≤ t2) :
    (∀ (c : CR.ConductorParams) (w att mot : ℝ),
      0 < c.diameter → 0 ≤ c.emissivity →
      0 < CR.resistanceAtTemp (c.res25C / 1000) c.alpha mot →
      CR.ieee738Ampacity t2 w att mot c ≤ CR.ieee738Ampacity t1 w att mot c) ∧
    (∀ (conductor : String) (w az wd mot : ℝ),
      CA.ieee738Ampacity conductor t2 w az wd mot ≤
        CA.ieee738Ampacity conductor t1 w az wd mot) := by
  constructor
  · intro c w att mot hD hε hR
    exact ampacity_cr_antitone c w att mot hD hε hR t1 t2 h1 h12
  · intro conductor w az wd mot
    exact ampacity_ca_antitone conductor w az wd mot t1 t2 h1 h12

/-- C3 witness: the amended monotonicity of both implementations between
ambients 0 and 60 °C — the compute-ratings version on the default conductor
at MOT 100 °C, wind 1 m/s, attack angle 0°, and the contingency-analysis
version on the DRAKE conductor at wind 5 m/s. -/
theorem c3_ampacity_antitone_witness :
    CR.ieee738Ampacity 60 1 0 100 CR.defaultConductor ≤
      CR.ieee738Ampacity 0 1 0 100 CR.defaultConductor ∧
    CA.ieee738Ampacity "795 ACSR 26/7 DRAKE" 60 5 0 90 100 ≤
      CA.ieee738Ampacity "795 ACSR 26/7 DRAKE" 0 5 0 90 100 := by
  have h := c3_ampacity_antitone 0 60 (by norm_num) (by norm_num)
  refine ⟨h.1 CR.defaultConductor 1 0 100 ?_ ?_ ?_, h.2 "795 ACSR 26/7 DRAKE" 5 0 90 100⟩
  · simp [CR.defaultConductor, CR.getConductorParams]
    norm_num
  · simp [CR.defaultConductor, CR.getConductorParams]
    norm_num
  · simp [CR.defaultConductor, CR.getConductorParams, CR.resistanceAtTemp]
    norm_num

/-- C3 counterexample: over all real ambient temperatures the claim fails.
Below absolute zero the fourth-power radiation term changes direction: with
the default conductor, attack angle 0° and MOT 100 °C, the rating at
−1273.15 °C is 0 while the rating at −273.15 °C is positive, so the rating
increases as ambient temperature rises from −1273.15 to −273.15 °C. -/
theorem c3_ampacity_antitone_cex :
    CR.ieee738Ampacity (-1273.15) 1 0 100 CR.defaultConductor <
      CR.ieee738Ampacity (-273.15) 1 0 100 CR.defaultConductor := by
  have hπl := Real.pi_gt_3141592
  have hπu := Real.pi_lt_315
  have hlo : CR.ieee738Ampacity (-1273.15) 1 0 100 CR.defaultConductor = 0 := by
    simp only [CR.ieee738Ampacity, CR.defaultConductor, CR.getConductorParams,
      CR.resistanceAtTemp]
    rw [show (0 : ℝ) * Real.pi / 180 = 0 by ring, Real.sin_zero, abs_zero, mul_zero]
    rw [Real.sqrt_eq_zero']
    rw [max_le_iff]
    refine ⟨le_refl 0, ?_⟩
    apply div_nonpos_of_nonpos_of_nonneg
    · nlinarith [hπl, hπu]
    · norm_num
  have hhi : 0 < CR.ieee738Ampacity (-273.15) 1 0 100 CR.defaultConductor := by
    simp only [CR.ieee738Ampacity, CR.defaultConductor, CR.getConductorParams,
      CR.resistanceAtTemp]
    rw [show (0 : ℝ) * Real.pi / 180 = 0 by ring, Real.sin_zero, abs_zero, mul_zero]
    rw [Real.sqrt_pos]
    rw [lt_max_iff]
    right
    apply div_pos
    · nlinarith [hπl, hπu]
    · norm_num
  rw [hlo]
  exact hhi

/-! ### Claim C4: the overload-temperature bisection -/

/-- The bisection loop keeps its invariant: the bracket stays inside the
original one, the rating stays at or above `a` on the left end and below
`a` on the right end, and `n` iterations shrink the width by `2 ^ n`. -/
theorem bisectLoop_invariant (f : ℝ → ℝ) (a : ℝ) :
    ∀ (n : ℕ) (lo hi : ℝ), lo ≤ hi → a ≤ f lo → f hi < a →
      lo ≤ (CR.bisectLoop f a n lo hi).1 ∧
      (CR.bisectLoop f a n lo hi).1 ≤ (CR.bisectLoop f a n lo hi).2 ∧
      (CR.bisectLoop f a n lo hi).2 ≤ hi ∧
      a ≤ f (CR.bisectLoop f a n lo hi).1 ∧
      f (CR.bisectLoop f a n lo hi).2 < a ∧
      (CR.bisectLoop f a n lo hi).2 - (CR.bisectLoop f a n lo hi).1 =
        (hi - lo) / 2 ^ n := by
  intro n
  induction n with
  | zero =>
      intro lo hi hle hlo hhi
      refine ⟨le_refl _, hle, le_refl _, hlo, hhi, by simp [CR.bisectLoop]⟩
  | succ n ih =>
      intro lo hi hle hlo hhi
      have hml : lo ≤ (lo + hi) / 2 := by linarith
      have hmh : (lo + hi) / 2 ≤ hi := by linarith
      have hstep : CR.bisectLoop f a (n + 1) lo hi =
          if f ((lo + hi) / 2) < a then CR.bisectLoop f a n lo ((lo + hi) / 2)
          else CR.bisectLoop f a n ((lo + hi) / 2) hi := rfl
      by_cases hm : f ((lo + hi) / 2) < a
      · rw [hstep, if_pos hm]
        obtain ⟨i1, i2, i3, i4, i5, i6⟩ := ih lo ((lo + hi) / 2) hml hlo hm
        refine ⟨i1, i2, le_trans i3 hmh, i4, i5, ?_⟩
        rw [i6]
        field_simp
        ring
      · rw [hstep, if_neg hm]
        obtain ⟨i1, i2, i3, i4, i5, i6⟩ := ih ((lo + hi) / 2) hi hmh (not_lt.mp hm) hhi
        refine ⟨le_trans hml i1, i2, i3, i4, i5, ?_⟩
        rw [i6]
        field_simp
        ring

/-- The compute-ratings ampacity is a continuous function of the ambient
temperature (all other inputs fixed). -/
theorem ampacity_cr_continuous (w att mot : ℝ) (c : CR.ConductorParams) :
    Continuous fun t => CR.ieee738Ampacity t w att mot c := by
  simp only [CR.ieee738Ampacity, CR.resistanceAtTemp]
  apply Real.continuous_sqrt.comp
  apply Continuous.max continuous_const
  apply Continuous.div_const
  apply Continuous.sub
  · apply Continuous.add
    · exact (continuous_const.mul (continuous_const.sub continuous_id)).mul continuous_const
    · exact continuous_const.mul
        (continuous_const.sub ((continuous_id.add continuous_const).pow 4))
  · exact continuous_const

/-- C4 (confirmed): `solveOverloadTemp` returns `some 0` when the rating at
0 °C ambient is already below the actual current, `none` when the rating at
60 °C ambient is still at least the actual current, and otherwise the
midpoint of a 24-times-halved bracket inside `[0, 60]`, which lies within
0.01 °C of an ambient temperature at which the rating equals the actual
current. -/
theorem c4_solveOverloadTemp_spec (line : CR.Line) (windMS windDeg actualA : ℝ)
    (c : CR.ConductorParams) :
    (CR.ieee738Ampacity 0 windMS line.attackAngle line.mot c < actualA →
      CR.solveOverloadTemp line windMS windDeg actualA c = some 0) ∧
    (actualA ≤ CR.ieee738Ampacity 0 windMS line.attackAngle line.mot c →
      actualA ≤ CR.ieee738Ampacity 60 windMS line.attackAngle line.mot c →
      CR.solveOverloadTemp line windMS windDeg actualA c = none) ∧
    (actualA ≤ CR.ieee738Ampacity 0 windMS line.attackAngle line.mot c →
      CR.ieee738Ampacity 60 windMS line.attackAngle line.mot c < actualA →
      ∃ r, CR.solveOverloadTemp line windMS windDeg actualA c = some r ∧
        0 ≤ r ∧ r ≤ 60 ∧
        ∃ t, 0 ≤ t ∧ t ≤ 60 ∧
          CR.ieee738Ampacity t windMS line.attackAngle line.mot c = actualA ∧
          |r - t| ≤ 0.01) := by
  refine ⟨?_, ?_, ?_⟩
  · intro h0
    simp only [CR.solveOverloadTemp, if_pos h0]
  · intro h0 h60
    simp only [CR.solveOverloadTemp, if_neg (not_lt.mpr h0), if_pos h60]
  · intro h0 h60
    have hne60 : ¬ actualA ≤ CR.ieee738Ampacity 60 windMS line.attackAngle line.mot c :=
      not_le.mpr h60
    simp only [CR.solveOverloadTemp, if_neg (not_lt.mpr h0), if_neg hne60]
    set f := fun t => CR.ieee738Ampacity t windMS line.attackAngle line.mot c with hf
    obtain ⟨i1, i2, i3, i4, i5, i6⟩ :=
      bisectLoop_invariant f actualA 24 0 60 (by norm_num) h0 h60
    set p := CR.bisectLoop f actualA 24 0 60
    refine ⟨(p.1 + p.2) / 2, rfl, by linarith, by linarith, ?_⟩
    have hw : p.2 - p.1 ≤ 0.02 := by
      rw [i6]
      norm_num
    have hmem : actualA ∈ Set.Icc (f p.2) (f p.1) := ⟨le_of_lt i5, i4⟩
    have hsub := intermediate_value_Icc' i2 ((ampacity_cr_continuous windMS
      line.attackAngle line.mot c).continuousOn)
    obtain ⟨t, htmem, hft⟩ := hsub hmem
    obtain ⟨ht1, ht2⟩ := htmem
    refine ⟨t, by linarith, by linarith, hft, ?_⟩
    rw [abs_le]
    constructor
    · linarith
    · linarith

/-- C4 witness: at attack angle 0°, MOT 100 °C, wind 1 m/s and actual
current 450 A on the default conductor, the rating at 0 °C exceeds 450 A
while the rating at 60 °C is below it, so the solver bisects and lands
within 0.01 °C of the crossing temperature. -/
theorem c4_solveOverloadTemp_witness :
    ∃ r, CR.solveOverloadTemp ⟨0, 100⟩ 1 90 450 CR.defaultConductor = some r ∧
      0 ≤ r ∧ r ≤ 60 ∧
      ∃ t, 0 ≤ t ∧ t ≤ 60 ∧
        CR.ieee738Ampacity t 1 0 100 CR.defaultConductor = 450 ∧
        |r - t| ≤ 0.01 := by
  have hπl := Real.pi_gt_3141592
  have hπu := Real.pi_lt_315
  have hR : (0 : ℝ) <
      CR.resistanceAtTemp (CR.defaultConductor.res25C / 1000) CR.defaultConductor.alpha 100 := by
    simp [CR.defaultConductor, CR.getConductorParams, CR.resistanceAtTemp]
    norm_num
  have h0 : (450 : ℝ) ≤ CR.ieee738Ampacity 0 1 0 100 CR.defaultConductor := by
    simp only [CR.ieee738Ampacity, CR.defaultConductor, CR.getConductorParams,
      CR.resistanceAtTemp]
    rw [show (0 : ℝ) * Real.pi / 180 = 0 by ring, Real.sin_zero, abs_zero, mul_zero]
    rw [Real.le_sqrt (by norm_num) (le_max_left 0 _)]
    apply le_trans _ (le_max_right 0 _)
    rw [le_div_iff (by norm_num)]
    nlinarith [hπl, hπu]
  have h60 : CR.ieee738Ampacity 60 1 0 100 CR.defaultConductor < 450 := by
    simp only [CR.ieee738Ampacity, CR.defaultConductor, CR.getConductorParams,
      CR.resistanceAtTemp]
    rw [show (0 : ℝ) * Real.pi / 180 = 0 by ring, Real.sin_zero, abs_zero, mul_zero]
    rw [Real.sqrt_lt' (by norm_num)]
    rw [max_lt_iff]
    refine ⟨by norm_num, ?_⟩
    rw [div_lt_iff (by norm_num)]
    nlinarith [hπl, hπu]
  exact (c4_solveOverloadTemp_spec ⟨0, 100⟩ 1 90 450 CR.defaultConductor).2.2 h0 h60

/-! ### Claim C5: the aggregator on an empty active set -/

/-- C5 (amended): `OutageSimulator.calculateSystemStats` on an empty active
set (every line cut or absent from the adjusted map) returns exactly
`ssi = 0`, `avgStress = 0`, `maxStress = 0` and all four band counts zero. -/
theorem c5_systemStats_empty (lines : List OutageSimulator.LineData)
    (adjustedStress : String → Option ℚ)
    (h : lines.filterMap (fun l => adjustedStress l.id) = []) :
    OutageSimulator.calculateSystemStats lines adjustedStress =
      { ssi := 0, avgStress := 0, maxStress := 0,
        bands := { low := 0, medium := 0, high := 0, overload := 0 } } := by
  simp only [OutageSimulator.calculateSystemStats, h]
  simp

/-- C5 witness: one line, all entries of the adjusted map `null`. -/
theorem c5_systemStats_empty_witness :
    OutageSimulator.calculateSystemStats [⟨"a", "A", 50⟩] (fun _ => none) =
      { ssi := 0, avgStress := 0, maxStress := 0,
        bands := { low := 0, medium := 0, high := 0, overload := 0 } } :=
  c5_systemStats_empty [⟨"a", "A", 50⟩] (fun _ => none) rfl

/-- C5 counterexample: the compute-ratings `computeSystemStressIndex` has
no empty guard: on an empty stresses array the mean and the stress index
are `0 / 0` (`NaN`) and the maximum is `Math.max()` of nothing
(`-Infinity`), modelled as `none`, not the `0` required by the claim. -/
theorem c5_systemStats_empty_cex :
    (CR.computeSystemStressIndex []).maxStress = none ∧
    (CR.computeSystemStressIndex []).avgStress = none ∧
    (CR.computeSystemStressIndex []).ssi = none ∧
    (none : Option ℝ) ≠ some 0 := by
  refine ⟨?_, ?_, ?_, by simp⟩ <;>
    simp [CR.computeSystemStressIndex, CR.jsDiv, CR.jsMax]

/-! ### Claim C6: the incident-cut stress uplift -/

/-- C6 (amended): for a cut line `calculateAdjustedStress` yields `null`
(`none`), and for a non-cut line it yields the baseline stress times
`1 + min(incidentCuts × 0.30, 0.60)`, where `incidentCuts` counts cut line
ids once per endpoint bus set — so a cut line sharing both endpoint buses
is counted twice, unlike the distinct-line count stated in the claim. -/
theorem c6_adjustedStress_spec (lines : List OutageSimulator.LineData)
    (cutLines : List String) (l : OutageSimulator.LineData) :
    (l.id ∈ cutLines →
      OutageSimulator.adjustedStressOf (OutageSimulator.buildAdjacency lines) l cutLines
        = none) ∧
    (l.id ∉ cutLines →
      OutageSimulator.adjustedStressOf (OutageSimulator.buildAdjacency lines) l cutLines
        = some (l.stress * (1 + min
            ((OutageSimulator.incidentCutCount (OutageSimulator.buildAdjacency lines)
                l.id cutLines : ℚ) * 0.30)
            0.60))) := by
  constructor
  · intro h
    simp [OutageSimulator.adjustedStressOf, h]
  · intro h
    simp only [OutageSimulator.adjustedStressOf, OutageSimulator.incidentCutCount, if_neg h]
    cases hb : (OutageSimulator.buildAdjacency lines).lineToBuses l.id with
    | none =>
        simp only [Nat.cast_zero, zero_mul]
        rw [min_eq_left (by norm_num)]
        ring_nf
    | some buses => simp

/-- C6 witness: two parallel lines between buses P and Q; cutting one gives
the other an incidence count of 2 and hence the capped factor 1.6. -/
theorem c6_adjustedStress_witness :
    OutageSimulator.adjustedStressOf
        (OutageSimulator.buildAdjacency
          [⟨"a", "P (1) TO Q (2)", 80⟩, ⟨"b", "P (1) TO Q (2)", 50⟩])
        ⟨"a", "P (1) TO Q (2)", 80⟩ ["b"] =
      some (80 * (1 + min ((2 : ℚ) * 0.30) 0.60)) := by
  have h := (c6_adjustedStress_spec
    [⟨"a", "P (1) TO Q (2)", 80⟩, ⟨"b", "P (1) TO Q (2)", 50⟩]
    ["b"] ⟨"a", "P (1) TO Q (2)", 80⟩).2 (by decide)
  rw [h]
  have hc : OutageSimulator.incidentCutCount
      (OutageSimulator.buildAdjacency
        [⟨"a", "P (1) TO Q (2)", 80⟩, ⟨"b", "P (1) TO Q (2)", 50⟩])
      "a" ["b"] = 2 := by decide
  simp only [hc]
  norm_num

/-- C6 counterexample: with the same two parallel lines, the returned value
is `80 × 1.6 = 128`, while the claim (counting the single distinct cut
neighbour once) demands `80 × 1.3 = 104`. -/
theorem c6_adjustedStress_cex :
    OutageSimulator.adjustedStressOf
        (OutageSimulator.buildAdjacency
          [⟨"a", "P (1) TO Q (2)", 80⟩, ⟨"b", "P (1) TO Q (2)", 50⟩])
        ⟨"a", "P (1) TO Q (2)", 80⟩ ["b"] = some 128 ∧
    some (128 : ℚ) ≠ some (80 * (1 + min ((1 : ℚ) * 0.30) 0.60)) := by
  constructor
  · have h1 : (OutageSimulator.buildAdjacency
        [⟨"a", "P (1) TO Q (2)", 80⟩, ⟨"b", "P (1) TO Q (2)", 50⟩]).lineToBuses "a" =
        some ("P", "Q") := by decide
    have h2 : ((((OutageSimulator.buildAdjacency
        [⟨"a", "P (1) TO Q (2)", 80⟩, ⟨"b", "P (1) TO Q (2)", 50⟩]).busToLines
          "P").getD []).countP fun i => decide (i ∈ ["b"])) = 1 := by decide
    have h3 : ((((OutageSimulator.buildAdjacency
        [⟨"a", "P (1) TO Q (2)", 80⟩, ⟨"b", "P (1) TO Q (2)", 50⟩]).busToLines
          "Q").getD []).countP fun i => decide (i ∈ ["b"])) = 1 := by decide
    simp only [OutageSimulator.adjustedStressOf]
    rw [if_neg (by decide)]
    simp only [h1, h2, h3]
    norm_num
  · intro h
    rw [Option.some_inj] at h
    rw [min_eq_left (by norm_num)] at h
    norm_num at h

/-! ### Claim C7: the empty-cut-set round trip -/

/-- Helper: with no cut lines the per-line adjustment is the identity. -/
theorem adjustedStressOf_nil_cut (sim : OutageSimulator.Sim)
    (l : OutageSimulator.LineData) :
    OutageSimulator.adjustedStressOf sim l [] = some l.stress := by
  simp only [OutageSimulator.adjustedStressOf]
  rw [if_neg (List.not_mem_nil l.id)]
  cases hb : sim.lineToBuses l.id with
  | none => rfl
  | some buses =>
      have hc : ∀ xs : List String,
          (xs.countP fun i => decide (i ∈ ([] : List String))) = 0 := by
        intro xs
        simp [List.countP_eq_zero]
      simp only [hc]
      norm_num

/-- Helper: the adjusted-stress fold with no cut lines builds the same map
as the baseline fold, from any accumulator. -/
theorem foldl_adjusted_eq_baseline (sim : OutageSimulator.Sim) :
    ∀ (lines : List OutageSimulator.LineData) (m : String → Option ℚ),
      lines.foldl
          (fun m l => fun k =>
            if k = l.id then OutageSimulator.adjustedStressOf sim l [] else m k) m =
      lines.foldl
          (fun m l => fun k => if k = l.id then some l.stress else m k) m := by
  intro lines m
  simp only [adjustedStressOf_nil_cut]

/-- C7 (confirmed): with an empty cut set the adjusted map equals the
baseline map exactly, and the system statistics over the adjusted map equal
the baseline statistics exactly. -/
theorem c7_roundTrip (lines : List OutageSimulator.LineData) :
    OutageSimulator.calculateAdjustedStress (OutageSimulator.buildAdjacency lines)
        lines [] = OutageSimulator.baselineStressMap lines ∧
    OutageSimulator.calculateSystemStats lines
        (OutageSimulator.calculateAdjustedStress (OutageSimulator.buildAdjacency lines)
          lines []) =
      OutageSimulator.calculateSystemStats lines
        (OutageSimulator.baselineStressMap lines) := by
  have hmap : OutageSimulator.calculateAdjustedStress
      (OutageSimulator.buildAdjacency lines) lines [] =
      OutageSimulator.baselineStressMap lines :=
    foldl_adjusted_eq_baseline (OutageSimulator.buildAdjacency lines) lines _
  exact ⟨hmap, by rw [hmap]⟩

/-! ### Claim C10: lines whose display name does not parse -/

/-- Helper: the fold never writes a `lineToBuses` entry for an id whose
lines all fail the regular expression. -/
theorem buildAdjacency_no_entry (l : OutageSimulator.LineData) :
    ∀ (lines : List OutageSimulator.LineData) (sim : OutageSimulator.Sim),
      sim.lineToBuses l.id = none →
      (∀ l2 ∈ lines, l2.id = l.id → parseLineName l2.name = none) →
      (lines.foldl OutageSimulator.buildAdjacencyStep sim).lineToBuses l.id = none := by
  intro lines
  induction lines with
  | nil => intro sim h _; simpa using h
  | cons l2 rest ih =>
      intro sim h hall
      simp only [List.foldl_cons]
      apply ih
      · simp only [OutageSimulator.buildAdjacencyStep]
        cases hp : parseLineName l2.name with
        | none => simpa using h
        | some buses =>
            have hne : l2.id ≠ l.id := by
              intro he
              exact (by simpa [hp] using hall l2 (by simp) he)
            simp only [OutageSimulator.mapSet]
            rw [if_neg (fun he => hne he.symm)]
            exact h
      · intro l3 h3 he
        exact hall l3 (by simp [h3]) he

/-- C10 (confirmed): a line whose display name does not match the
`"BUS1 (n) TO BUS2 (n)"` pattern (and whose id is carried by no other
parsing line) receives no adjacency entry, so it keeps its baseline stress
under every cut set not containing it and becomes `null` when itself cut. -/
theorem c10_unparsedLine_spec (lines : List OutageSimulator.LineData)
    (l : OutageSimulator.LineData) (cutLines : List String)
    (hname : ∀ l2 ∈ lines, l2.id = l.id → parseLineName l2.name = none) :
    (OutageSimulator.buildAdjacency lines).lineToBuses l.id = none ∧
    (l.id ∉ cutLines →
      OutageSimulator.adjustedStressOf (OutageSimulator.buildAdjacency lines) l cutLines
        = some l.stress) ∧
    (l.id ∈ cutLines →
      OutageSimulator.adjustedStressOf (OutageSimulator.buildAdjacency lines) l cutLines
        = none) := by
  have hnone : (OutageSimulator.buildAdjacency lines).lineToBuses l.id = none :=
    buildAdjacency_no_entry l lines _ rfl hname
  refine ⟨hnone, ?_, ?_⟩
  · intro h
    simp [OutageSimulator.adjustedStressOf, h, hnone]
  · intro h
    simp [OutageSimulator.adjustedStressOf, h]

/-- C10 witness: a single line named "weird line", first with a cut set not
containing it, then itself cut. -/
theorem c10_unparsedLine_witness :
    (OutageSimulator.buildAdjacency [⟨"x", "weird line", 42⟩]).lineToBuses "x" = none ∧
    OutageSimulator.adjustedStressOf
        (OutageSimulator.buildAdjacency [⟨"x", "weird line", 42⟩])
        ⟨"x", "weird line", 42⟩ ["y"] = some 42 ∧
    OutageSimulator.adjustedStressOf
        (OutageSimulator.buildAdjacency [⟨"x", "weird line", 42⟩])
        ⟨"x", "weird line", 42⟩ ["x"] = none := by
  refine ⟨(c10_unparsedLine_spec [⟨"x", "weird line", 42⟩] ⟨"x", "weird line", 42⟩
      ["y"] (by decide)).1,
    (c10_unparsedLine_spec [⟨"x", "weird line", 42⟩] ⟨"x", "weird line", 42⟩
      ["y"] (by decide)).2.1 (by decide),
    (c10_unparsedLine_spec [⟨"x", "weird line", 42⟩] ⟨"x", "weird line", 42⟩
      ["x"] (by decide)).2.2 (by decide)⟩

/-! ### Claim C8: the contingency list -/

/-- Helper: the running maximum never drops below its accumulator. -/
theorem maxStress_foldl_ge_acc (tempC windMS windDeg : ℝ) :
    ∀ (ns : List CA.LineData) (acc : ℝ),
      acc ≤ ns.foldl
        (fun m n =>
          if 80 < CA.neighborStress tempC windMS windDeg n
          then max m (CA.neighborStress tempC windMS windDeg n) else m) acc := by
  intro ns
  induction ns with
  | nil => intro acc; simp
  | cons n rest ih =>
      intro acc
      simp only [List.foldl_cons]
      refine le_trans ?_ (ih _)
      by_cases h : 80 < CA.neighborStress tempC windMS windDeg n
      · rw [if_pos h]
        exact le_max_left _ _
      · rw [if_neg h]

/-- Helper: the running maximum dominates the stress of every neighbour
that qualifies as an issue. -/
theorem maxStress_foldl_ge_elem (tempC windMS windDeg : ℝ) :
    ∀ (ns : List CA.LineData) (acc : ℝ) (n : CA.LineData), n ∈ ns →
      80 < CA.neighborStress tempC windMS windDeg n →
      CA.neighborStress tempC windMS windDeg n ≤
        ns.foldl
          (fun m n =>
            if 80 < CA.neighborStress tempC windMS windDeg n
            then max m (CA.neighborStress tempC windMS windDeg n) else m) acc := by
  intro ns
  induction ns with
  | nil => intro acc n hn; exact absurd hn (List.not_mem_nil n)
  | cons n2 rest ih =>
      intro acc n hn hs
      rcases List.mem_cons.mp hn with he | hr
      · subst he
        simp only [List.foldl_cons, if_pos hs]
        exact le_trans (le_max_right _ _) (maxStress_foldl_ge_acc tempC windMS windDeg rest _)
      · simp only [List.foldl_cons]
        exact ih _ n hr hs

/-- Helper: a stress strictly above 80 still reads at least 80 after being
rounded to one decimal (`Math.round(s * 10) / 10`). -/
theorem jsRound_tenths_ge (s : ℝ) (h : 80 < s) :
    (80 : ℝ) ≤ (jsRound (s * 10) : ℝ) / 10 := by
  have hfl : (800 : ℤ) ≤ ⌊s * 10 + 1 / 2⌋ := by
    apply Int.le_floor.mpr
    push_cast
    linarith
  have hcast : ((800 : ℤ) : ℝ) ≤ (⌊s * 10 + 1 / 2⌋ : ℝ) := Int.cast_le.mpr hfl
  simp only [jsRound]
  push_cast at hcast ⊢
  linarith

/-- C8 (amended): the contingency list has length at most 10 and is sorted
in descending order of `maxStress`; every returned contingency has a
nonempty issue list and a `maxStress` strictly above 80, and every recorded
issue stress — the neighbour stress rounded to one decimal — is at least 80
(the pre-rounding stress exceeds 80, but rounding can map values in
(80, 80.05) to exactly 80.0).  Outages with no neighbour or no issue are
omitted. -/
theorem c8_contingency_spec (lines : List CA.LineData) (tempC windMS windDeg : ℝ) :
    (CA.contingencyAnalysis lines tempC windMS windDeg).length ≤ 10 ∧
    (CA.contingencyAnalysis lines tempC windMS windDeg).Pairwise
      (fun a b => b.maxStress ≤ a.maxStress) ∧
    ∀ c ∈ CA.contingencyAnalysis lines tempC windMS windDeg,
      c.issues ≠ [] ∧ 80 < c.maxStress ∧ ∀ i ∈ c.issues, 80 ≤ i.stress := by
  refine ⟨?_, ?_, ?_⟩
  · simp only [CA.contingencyAnalysis]
    rw [List.length_take]
    exact min_le_left _ _
  · simp only [CA.contingencyAnalysis]
    apply List.Pairwise.sublist (List.take_sublist _ _)
    have hs := @List.sorted_mergeSort CA.Contingency
      (fun a b => decide (b.maxStress ≤ a.maxStress))
      (by
        intro a b c h1 h2
        simp only [decide_eq_true_eq] at h1 h2 ⊢
        exact le_trans h2 h1)
      (by
        intro a b
        rcases le_total b.maxStress a.maxStress with h | h
        · simp [h]
        · simp [h])
      (lines.filterMap (CA.contingencyFor tempC windMS windDeg lines))
    exact hs.imp fun h => of_decide_eq_true h
  · intro c hc
    simp only [CA.contingencyAnalysis] at hc
    have hc2 : c ∈ lines.filterMap (CA.contingencyFor tempC windMS windDeg lines) :=
      (List.mem_mergeSort).mp (List.mem_of_mem_take hc)
    obtain ⟨outage, hout, hsome⟩ := List.mem_filterMap.mp hc2
    simp only [CA.contingencyFor] at hsome
    by_cases hne : (CA.neighborsOf lines outage).isEmpty
    · rw [if_pos hne] at hsome
      exact absurd hsome (by simp)
    · rw [if_neg hne] at hsome
      by_cases hie :
          (CA.issuesOf tempC windMS windDeg (CA.neighborsOf lines outage)).isEmpty
      · rw [if_pos hie] at hsome
        exact absurd hsome (by simp)
      · rw [if_neg hie] at hsome
        have hceq := (Option.some_inj.mp hsome).symm
        have hienil : CA.issuesOf tempC windMS windDeg (CA.neighborsOf lines outage) ≠ [] := by
          simpa using hie
        refine ⟨?_, ?_, ?_⟩
        · rw [hceq]
          simp only [CA.sortIssues]
          intro hnil
          have := congrArg List.length hnil
          rw [List.length_mergeSort] at this
          exact hienil (List.eq_nil_of_length_eq_zero this)
        · rw [hceq]
          obtain ⟨i, hi⟩ := List.exists_mem_of_ne_nil _ hienil
          obtain ⟨n, hnmem, hnsome⟩ := List.mem_filterMap.mp hi
          by_cases hcond : 80 < CA.neighborStress tempC windMS windDeg n
          · exact lt_of_lt_of_le hcond
              (maxStress_foldl_ge_elem tempC windMS windDeg _ 0 n hnmem hcond)
          · rw [if_neg hcond] at hnsome
            exact absurd hnsome (by simp)
        · intro i hi
          rw [hceq] at hi
          simp only [CA.sortIssues, List.mem_mergeSort] at hi
          obtain ⟨n, hnmem, hnsome⟩ := List.mem_filterMap.mp hi
          by_cases hcond : 80 < CA.neighborStress tempC windMS windDeg n
          · rw [if_pos hcond] at hnsome
            have := Option.some_inj.mp hnsome
            rw [← this]
            exact jsRound_tenths_ge _ hcond
          · rw [if_neg hcond] at hnsome
            exact absurd hnsome (by simp)

/-- Helper: two-sided bounds on `√3` used to pin rounding behaviour. -/
theorem sqrt3_bounds : 1.7320508 < Real.sqrt 3 ∧ Real.sqrt 3 < 1.7320509 :=
  ⟨(Real.lt_sqrt (by norm_num)).mpr (by norm_num),
   (Real.sqrt_lt' (by norm_num)).mpr (by norm_num)⟩

/-- Helper: the unknown-conductor branch is independent of the environment. -/
theorem ampacity_ca_unknown (t w az wd M : ℝ) :
    CA.ieee738Ampacity "X" t w az wd M = 600 := rfl

/-- Helper: the uplifted stress of `cexL1` in closed form. -/
theorem cexL1_stress_eq :
    CA.neighborStress 25 5 90 cexL1 = 95615 / (690 * Real.sqrt 3) := by
  have h3ne : Real.sqrt 3 ≠ 0 := ne_of_gt (Real.sqrt_pos.mpr (by norm_num))
  simp only [CA.neighborStress, cexL1, ampacity_ca_unknown, CA.computeLineStress]
  rw [if_pos (by norm_num)]
  push_cast
  field_simp
  ring

/-- Helper: that stress exceeds 80. -/
theorem cexL1_stress_gt : 80 < CA.neighborStress 25 5 90 cexL1 := by
  obtain ⟨hl, hu⟩ := sqrt3_bounds
  rw [cexL1_stress_eq]
  rw [lt_div_iff (by positivity)]
  nlinarith

/-- Helper: ten times that stress stays below 800.5, so it rounds to 800
tenths, recorded as exactly 80.0. -/
theorem cexL1_round : jsRound (CA.neighborStress 25 5 90 cexL1 * 10) = 800 := by
  obtain ⟨hl, hu⟩ := sqrt3_bounds
  have h3pos : (0 : ℝ) < Real.sqrt 3 := Real.sqrt_pos.mpr (by norm_num)
  have hgt := cexL1_stress_gt
  have hlt : CA.neighborStress 25 5 90 cexL1 * 10 < 800.5 := by
    rw [cexL1_stress_eq]
    rw [div_mul_eq_mul_div, div_lt_iff (by positivity)]
    nlinarith
  simp only [jsRound]
  rw [Int.floor_eq_iff]
  constructor
  · push_cast
    linarith
  · push_cast
    linarith

/-- Helper: the flow-free neighbour has stress 0. -/
theorem cexL2_stress_eq : CA.neighborStress 25 5 90 cexL2 = 0 := by
  simp only [CA.neighborStress, cexL2, ampacity_ca_unknown, CA.computeLineStress]
  rw [if_pos (by norm_num)]
  push_cast
  norm_num

/-- C8 counterexample: on the two-line grid the single returned contingency
has exactly one issue, recorded with stress exactly 80.0 — no issue of this
contingency has stress strictly above 80, contrary to the claim. -/
theorem c8_contingency_cex :
    ∃ c, CA.contingencyAnalysis [cexL1, cexL2] 25 5 90 = [c] ∧
      c.issues = [⟨"L1name", (80 : ℝ)⟩] ∧
      ¬ ∃ i ∈ c.issues, 80 < i.stress := by
  have hn1 : CA.neighborsOf [cexL1, cexL2] cexL1 = [cexL2] := rfl
  have hn2 : CA.neighborsOf [cexL1, cexL2] cexL2 = [cexL1] := rfl
  have hiss1 : CA.issuesOf 25 5 90 [cexL2] = [] := by
    simp only [CA.issuesOf, List.filterMap_cons, List.filterMap_nil]
    rw [if_neg (by rw [cexL2_stress_eq]; norm_num)]
  have hiss2 : CA.issuesOf 25 5 90 [cexL1] = [⟨"L1name", (80 : ℝ)⟩] := by
    simp only [CA.issuesOf, List.filterMap_cons, List.filterMap_nil]
    rw [if_pos cexL1_stress_gt, cexL1_round]
    norm_num [cexL1]
  have hcf1 : CA.contingencyFor 25 5 90 [cexL1, cexL2] cexL1 = none := by
    simp only [CA.contingencyFor, hn1, hiss1]
    rw [if_neg (by simp), if_pos (by simp)]
  have hcf2 : CA.contingencyFor 25 5 90 [cexL1, cexL2] cexL2 =
      some ⟨"L2name", [⟨"L1name", (80 : ℝ)⟩], CA.maxStressOf 25 5 90 [cexL1]⟩ := by
    simp only [CA.contingencyFor, hn2, hiss2]
    rw [if_neg (by simp), if_neg (by simp)]
    simp [CA.sortIssues, cexL2]
  refine ⟨⟨"L2name", [⟨"L1name", (80 : ℝ)⟩], CA.maxStressOf 25 5 90 [cexL1]⟩, ?_, rfl, ?_⟩
  · simp only [CA.contingencyAnalysis, List.filterMap_cons, List.filterMap_nil,
      hcf1, hcf2]
    simp
  · rintro ⟨i, hi, hlt⟩
    simp only [List.mem_singleton] at hi
    rw [hi] at hlt
    exact absurd hlt (by norm_num)

/-! ### Claim C9: topology-load failure handling -/

/-- C9 (amended): a failed upstream fetch, and a fetched topology on which
`parseGrid` throws, both propagate as a structured error result; but a
topology that loads successfully as an *empty* grid is analysed normally
and produces a successful response with an empty contingency list — this
revision has no empty-grid guard. -/
theorem c9_loadFailure_spec (tempC windMS windDeg : ℝ) :
    (∀ e, CA.serveContingency (.error e) tempC windMS windDeg = .error e) ∧
    (∀ linesText flowsText msg,
      CA.parseGrid linesText flowsText = .error msg →
      CA.serveContingency (.ok (linesText, flowsText)) tempC windMS windDeg =
        .error msg) := by
  constructor
  · intro e
    rfl
  · intro linesText flowsText msg h
    simp only [CA.serveContingency, h]

/-- C9 witness: a rejected fetch, and a fetched body that is not a CSV with
the expected columns. -/
theorem c9_loadFailure_witness :
    CA.serveContingency (.error "CSV fetch failed") 25 5 90 =
      .error "CSV fetch failed" ∧
    CA.serveContingency (.ok ("bad", "x")) 25 5 90 =
      .error "Missing column \"name\"" := by
  refine ⟨(c9_loadFailure_spec 25 5 90).1 "CSV fetch failed",
    (c9_loadFailure_spec 25 5 90).2 "bad" "x" "Missing column \"name\"" rfl⟩

/-- C9 counterexample: a well-formed topology with header rows only parses
to an empty grid, and the handler then returns a *successful* response with
an empty contingency list — not the structured error the claim requires for
a load that yields no grid. -/
theorem c9_loadFailure_cex :
    CA.parseGrid "name,bus0,bus1,branch_name,conductor,MOT" "name,p0_nominal" =
      .ok [] ∧
    CA.serveContingency
        (.ok ("name,bus0,bus1,branch_name,conductor,MOT", "name,p0_nominal"))
        25 5 90 = .ok [] := by
  have hparse : CA.parseGrid "name,bus0,bus1,branch_name,conductor,MOT"
      "name,p0_nominal" = .ok [] := rfl
  refine ⟨hparse, ?_⟩
  simp only [CA.serveContingency, hparse]
  simp [CA.contingencyAnalysis]

end GridStress
